import Mathlib

/-!
Shallow embedding of the juju-spell connection/dispatch subsystem
(`juju_spell/connections/manager.py`, `juju_spell/assignment/runner.py`,
`juju_spell/commands/*.py`, `juju_spell/utils.py`) and proofs of the
specification claims about it.

Python strings are modelled as `String` (or `List Char` where character-level
reasoning is needed), Python exceptions as an `Err` inductive carried in
`Except`/`Option`, mutable manager state as an explicit `ManagerState` record
threaded through the functions, and external effects (socket probing, shuffle
results, subprocess spawning, remote connect outcomes) as explicit oracle
parameters collected in `Env`.
-/

namespace JujuSpell

/-- Python exception values that the modelled code can raise.  The messages
follow the source (f-string interpolations dropped). -/
inductive Err where
  | jujuSpellError (msg : String)
  | jujuError (msg : String)
  | notImplementedError (msg : String)
  | valueError (msg : String)
  | attributeError (msg : String)
  | keyError (msg : String)
  deriving DecidableEq, Repr

/-- Modelled from the spec: `juju_spell/exceptions.py` is not under `src/`;
the spec's error taxonomy (section 7) introduces `UnsupportedStrategyError` as
its name for the explicit rejection that the code in
`assignment/runner.py` raises as Python's `NotImplementedError`. -/
def UnsupportedStrategyError (msg : String) : Err :=
  Err.notImplementedError msg

/-- Modelled from the spec: the spec's taxonomy name (section 7) for the
`ValueError` raised by `get_free_tcp_port` when the port range is exhausted
(`manager.py` line 41; interpolated range repr dropped from the message). -/
def NoFreePort : Err :=
  Err.valueError "Could not find a free port in range"

/-- Tunnel specification of a controller (`controller_config.connection`
usage in `manager.py`: `.destination`, `.jumps`, `.subnets`). -/
structure TunnelSpec where
  destination : String
  jumps : List String
  subnets : List String
  deriving DecidableEq, Repr

/-- Modelled from the spec: `juju_spell/config.py` is not under `src/`; the
`Controller` (TargetConfig) fields are those used by the code in `src/`
(`uuid`/`name`/`customer` in `runner.get_result`, `endpoint`/`username`/
`password`/`ca_cert`/`connection` in `manager._connect`). -/
structure Controller where
  uuid : String
  name : String
  customer : String
  endpoint : String
  username : String
  password : String
  ca_cert : String
  connection : Option TunnelSpec
  deriving DecidableEq, Repr

/-- Output values a command can produce (`Result.output` is a dynamically
typed Python value; the commands involved here produce strings, lists or
nothing). -/
inductive Value where
  | none
  | str (s : String)
  | listStr (l : List String)
  deriving DecidableEq, Repr

/-- Modelled from the spec: `juju_spell/commands/base.py` is not under
`src/`; section 3 of the spec fixes `Result` as
`\x7bsuccess: bool, output: value-or-null, error: error-or-null\x7d`, which
matches the `Result(success, output, error)` uses in the unit tests. -/
structure Result where
  success : Bool
  output : Value
  error : Option Err
  deriving DecidableEq, Repr

/-- One registry entry of the connect manager (`Connection` dataclass in
`manager.py`): the live controller handle and the optional tunnel
subprocess.  Handles and processes are identified by numeric ids. -/
structure Connection where
  controller : Nat
  connection_process : Option Nat
  deriving DecidableEq, Repr

/-- The mutable world of the connect manager: the registry
(`ConnectManager._connections`, an insertion-ordered dict keyed by controller
name), the pool of juju controller handles with their `is_connected` status,
fresh-id counters, and event logs recording which tunnel processes were
spawned/terminated and on which handles `disconnect()` was called. -/
structure ManagerState where
  connections : List (String × Connection)
  handles : List (Nat × Bool)
  nextHandle : Nat
  nextProc : Nat
  spawned : List Nat
  terminated : List Nat
  disconnected : List Nat
  deriving DecidableEq, Repr

/-- External nondeterminism, fixed as oracles: `isFree` is the result of
probing a local TCP port (`_is_port_free`), `shuffled` is the result of
`random.shuffle` on the configured port range, `connOk` tells whether the
handle obtained from `controller.connect` for a given controller name ends
up connected (`is_connected`), and `disconnectFails` tells whether
`controller.disconnect()` raises for a given handle. -/
structure Env where
  isFree : Nat → Bool
  shuffled : List Nat
  connOk : String → Bool
  disconnectFails : Nat → Bool

/-- Dict write `self.connections[name] = conn`: overwrite in place or append. -/
def upsert (k : String) (v : Connection) :
    List (String × Connection) → List (String × Connection)
  | [] => [(k, v)]
  | (k', v') :: rest =>
      if k' = k then (k, v) :: rest else (k', v') :: upsert k v rest

/-- Dict read `self.connections.get(name)`. -/
def lookupConn (st : ManagerState) (k : String) : Option Connection :=
  st.connections.lookup k

/-- Dict delete `del self.connections[name]` (removes the entry). -/
def eraseConn (k : String) :
    List (String × Connection) → List (String × Connection)
  | [] => []
  | (k', v') :: rest =>
      if k' = k then rest else (k', v') :: eraseConn k rest

/-- `connection.controller.is_connected()` for a handle id. -/
def isConnected (st : ManagerState) (h : Nat) : Bool :=
  (st.handles.lookup h).getD false

/-- `await connection.controller.disconnect()`: mark the handle disconnected
and record the disconnect event. -/
def disconnectHandle (st : ManagerState) (h : Nat) : ManagerState :=
  { st with
    handles := st.handles.map (fun p => if p.1 = h then (p.1, false) else p)
    disconnected := st.disconnected ++ [h] }

/-- `get_free_tcp_port(port_range)` (`manager.py` lines 26-41): scan the
shuffled port list, return the first free port, raise `ValueError` when no
port in the range is free. -/
def get_free_tcp_port (shuffled : List Nat) (isFree : Nat → Bool) :
    Except Err Nat :=
  match shuffled with
  | [] => .error NoFreePort
  | p :: rest =>
      if isFree p then .ok p else get_free_tcp_port rest isFree

/-- `ConnectManager._connect` (`manager.py` lines 170-204): pick a free local
port and spawn an ssh port-forwarding subprocess when the target has a tunnel
spec and sshuttle is not requested; spawn an sshuttle subprocess when it is;
then connect the handle and register the new `Connection` under the target's
name.  Returns the new handle id (exceptions leave the state as it was, since
`get_free_tcp_port` raises before any mutation). -/
def ConnectManager.connectNew (env : Env) (st : ManagerState)
    (cfg : Controller) (sshuttle : Bool) :
    Except Err Nat × ManagerState :=
  let hid := st.nextHandle
  let spawnResult : Except Err (Option Nat × ManagerState) :=
    match cfg.connection, sshuttle with
    | some _, false =>
        match get_free_tcp_port env.shuffled env.isFree with
        | .error e => .error e
        | .ok _port =>
            let pid := st.nextProc
            .ok (some pid,
              { st with nextProc := st.nextProc + 1,
                        spawned := st.spawned ++ [pid] })
    | some _, true =>
        let pid := st.nextProc
        .ok (some pid,
          { st with nextProc := st.nextProc + 1,
                    spawned := st.spawned ++ [pid] })
    | none, _ => .ok (none, st)
  match spawnResult with
  | .error e => (.error e, st)
  | .ok (proc, st1) =>
      let st2 : ManagerState :=
        { st1 with
          handles := st1.handles ++ [(hid, env.connOk cfg.name)]
          nextHandle := st1.nextHandle + 1
          connections := upsert cfg.name ⟨hid, proc⟩ st1.connections }
      (.ok hid, st2)

/-- `ConnectManager.get_controller` (`manager.py` lines 221-242): return the
cached handle when it exists, is still connected and reconnect was not
forced; on forced reconnect disconnect the old handle first; in every other
case establish a new connection via `_connect`. -/
def ConnectManager.get_controller (env : Env) (st : ManagerState)
    (cfg : Controller) (sshuttle : Bool) (reconnect : Bool) :
    Except Err Nat × ManagerState :=
  match lookupConn st cfg.name with
  | some conn =>
      if isConnected st conn.controller && !reconnect then
        (.ok conn.controller, st)
      else if reconnect then
        ConnectManager.connectNew env (disconnectHandle st conn.controller)
          cfg sshuttle
      else
        ConnectManager.connectNew env st cfg sshuttle
  | none => ConnectManager.connectNew env st cfg sshuttle

/-- Loop body of `ConnectManager.clean` (`manager.py` lines 206-219) over the
copied key list: disconnect the handle (an exception aborts the whole loop,
there is no try/except in the source), terminate the tunnel subprocess if
any, delete the entry.  A key missing from the registry cannot occur (keys
are copied from the registry and each is deleted exactly once after being
processed); Python would raise `KeyError`, modelled likewise. -/
def cleanGo (fails : Nat → Bool) :
    List String → ManagerState → ManagerState × Option Err
  | [], st => (st, none)
  | name :: rest, st =>
      match lookupConn st name with
      | none => (st, some (Err.keyError name))
      | some conn =>
          if fails conn.controller then
            (st, some (Err.jujuError "disconnect failed"))
          else
            let st1 := disconnectHandle st conn.controller
            let st2 :=
              match conn.connection_process with
              | some pid => { st1 with terminated := st1.terminated ++ [pid] }
              | none => st1
            let st3 := { st2 with connections := eraseConn name st2.connections }
            cleanGo fails rest st3

/-- `ConnectManager.clean` (`manager.py` lines 206-219): iterate over a copy
of the registry keys, closing and removing each entry in turn. -/
def ConnectManager.clean (env : Env) (st : ManagerState) :
    ManagerState × Option Err :=
  cleanGo env.disconnectFails (st.connections.map Prod.fst) st

/-- `PING_ACCESSIBLE` (`commands/ping.py`). -/
def PING_ACCESSIBLE : String := "accessible"

/-- `PING_UNREACHABLE` (`commands/ping.py`). -/
def PING_UNREACHABLE : String := "unreachable"

/-- A command's `run` as invoked by the runner: given the manager state, the
handle obtained from the connect manager and the target's config, it yields
a `Result`.  (`BaseJujuCommand.run` is the uniform Result-producing entry
point of the command protocol, spec section 4.3.) -/
def Cmd : Type := ManagerState → Nat → Controller → Result

/-- `PingCommand` (`commands/ping.py`): report `accessible` when the handle
`is_connected()`, `unreachable` otherwise; it never fails, so its `Result`
is successful with the string as output. -/
def PingCommand : Cmd := fun st h _cfg =>
  { success := true
    output := .str (if isConnected st h then PING_ACCESSIBLE else PING_UNREACHABLE)
    error := none }

/-- Identity context of a result record (`get_result` in
`assignment/runner.py`: uuid, name, customer of the target). -/
structure Context where
  uuid : String
  name : String
  customer : String
  deriving DecidableEq, Repr

/-- One element of `RESULTS_TYPE`: the dict built by `get_result`,
`\x7b"context": ..., **asdict(output)\x7d`. -/
structure ResultRecord where
  context : Context
  success : Bool
  output : Value
  error : Option Err
  deriving DecidableEq, Repr

/-- Run options from the CLI namespace used by `run`/`pre_check`
(`parsed_args.pre_check`, `parsed_args.run_type`; `run_type` is compared
against the strings "parallel" and "batch", anything else runs serially). -/
structure RunArgs where
  pre_check : Bool
  run_type : String
  deriving DecidableEq, Repr

/-- The application configuration as used by the runner: the list of
controller targets (`config.controllers`; the port range is carried by
`Env.shuffled` as the result of shuffling it). -/
structure Config where
  controllers : List Controller
  deriving DecidableEq, Repr

/-- `get_result` (`assignment/runner.py` lines 25-34): combine the target's
identity context with the fields of the command's `Result`. -/
def get_result (controller_config : Controller) (output : Result) :
    ResultRecord :=
  { context :=
      { uuid := controller_config.uuid
        name := controller_config.name
        customer := controller_config.customer }
    success := output.success
    output := output.output
    error := output.error }

/-- `run_parallel` (`assignment/runner.py` lines 37-44): not yet supported,
raises `NotImplementedError` unconditionally. -/
def run_parallel (_env : Env) (st : ManagerState) (_config : Config)
    (_command : Cmd) (_parsed_args : RunArgs) :
    Except Err (List ResultRecord) × ManagerState :=
  (.error (Err.notImplementedError "running in parallel is not yet supported"), st)

/-- `run_batch` (`assignment/runner.py` lines 73-80): not yet supported,
raises `NotImplementedError` unconditionally. -/
def run_batch (_env : Env) (st : ManagerState) (_config : Config)
    (_command : Cmd) (_parsed_args : RunArgs) :
    Except Err (List ResultRecord) × ManagerState :=
  (.error (Err.notImplementedError "running in batches is not yet supported"), st)

/-- Loop of `run_serial` (`assignment/runner.py` lines 59-70): for each
controller config in order, obtain a live handle from the connect manager
(`get_controller(controller_config, port_range)`, defaults: no sshuttle, no
reconnect), run the command against it and append the merged result record.
An exception from the connection step propagates with the state mutated so
far. -/
def runSerialGo (env : Env) (command : Cmd) :
    List Controller → ManagerState → List ResultRecord →
    Except Err (List ResultRecord) × ManagerState
  | [], st, results => (.ok results, st)
  | controller_config :: rest, st, results =>
      match ConnectManager.get_controller env st controller_config false false with
      | (.error e, st') => (.error e, st')
      | (.ok controller, st') =>
          let output := command st' controller controller_config
          runSerialGo env command rest st'
            (results ++ [get_result controller_config output])

/-- `run_serial` (`assignment/runner.py` lines 47-70). -/
def run_serial (env : Env) (st : ManagerState) (config : Config)
    (command : Cmd) (_parsed_args : RunArgs) :
    Except Err (List ResultRecord) × ManagerState :=
  runSerialGo env command config.controllers st []

/-- `pre_check` (`assignment/runner.py` lines 83-96): run `PingCommand`
under the selected strategy; report `False` (and the ping results) when any
record's output is `PING_UNREACHABLE`, `True` otherwise. -/
def pre_check (env : Env) (st : ManagerState) (config : Config)
    (parsed_args : RunArgs) :
    Except Err (Bool × List ResultRecord) × ManagerState :=
  let dispatched :=
    if parsed_args.run_type = "parallel" then
      run_parallel env st config PingCommand parsed_args
    else if parsed_args.run_type = "batch" then
      run_batch env st config PingCommand parsed_args
    else
      run_serial env st config PingCommand parsed_args
  match dispatched with
  | (.error e, st') => (.error e, st')
  | (.ok result, st') =>
      if result.any (fun ping_result => ping_result.output = .str PING_UNREACHABLE) then
        (.ok (false, result), st')
      else
        (.ok (true, result), st')

/-- Strategy dispatch inside `run` (`assignment/runner.py` lines 110-117). -/
def runDispatch (env : Env) (st : ManagerState) (config : Config)
    (command : Cmd) (parsed_args : RunArgs) :
    Except Err (List ResultRecord) × ManagerState :=
  if parsed_args.run_type = "parallel" then
    run_parallel env st config command parsed_args
  else if parsed_args.run_type = "batch" then
    run_batch env st config command parsed_args
  else
    run_serial env st config command parsed_args

/-- `run` (`assignment/runner.py` lines 99-119): optional pre-check gate,
then strategy dispatch, with `connect_manager.clean()` in a `finally`
(an exception raised by the cleanup replaces the body's outcome). -/
def run (env : Env) (st : ManagerState) (config : Config) (command : Cmd)
    (parsed_args : RunArgs) :
    Except Err (List ResultRecord) × ManagerState :=
  let body : Except Err (List ResultRecord) × ManagerState :=
    if parsed_args.pre_check then
      match pre_check env st config parsed_args with
      | (.error e, st') => (.error e, st')
      | (.ok (pre_check_ok, pre_check_result), st') =>
          if !pre_check_ok then (.ok pre_check_result, st')
          else runDispatch env st' config command parsed_args
    else
      runDispatch env st config command parsed_args
  match body with
  | (res, stBody) =>
      match ConnectManager.clean env stBody with
      | (stClean, some e) => (.error e, stClean)
      | (stClean, none) => (res, stClean)

/-- A model as yielded by `get_filtered_models` (only its uuid is used by the
commands modelled here). -/
structure ModelInfo where
  uuid : String
  deriving DecidableEq, Repr

/-- `CONTROLLER_ACL_CHOICES` (`commands/grant.py`). -/
def CONTROLLER_ACL_CHOICES : List String := ["login", "add-model", "superuser"]

/-- `MODEL_ACL_CHOICES` (`commands/grant.py`). -/
def MODEL_ACL_CHOICES : List String := ["read", "write", "admin"]

/-- `GrantCommand.get_controller_acl` (`commands/grant.py` lines 35-41). -/
def GrantCommand.get_controller_acl (acl : String) : String :=
  if acl ∈ CONTROLLER_ACL_CHOICES then acl else "login"

/-- `GrantCommand.get_model_acl` (`commands/grant.py` lines 43-51). -/
def GrantCommand.get_model_acl (acl : String) : String :=
  if acl ∈ MODEL_ACL_CHOICES then acl
  else if acl = "superuser" then "admin"
  else "read"

/-- Per-model loop of `GrantCommand.execute` (`commands/grant.py` lines
74-101): call `controller.grant_model` for each filtered model; a `JujuError`
is logged and tolerated when `overwrite` is set, and re-raised otherwise.
`grant_model` outcomes come from the oracle (model uuid, acl ↦ optional
error message); the list of model uuids on which `grant_model` was invoked
is returned alongside the outcome. -/
def grantGo (grant_model : String → String → Option String)
    (model_acl : String) (overwrite : Bool) :
    List ModelInfo → List String → Except Err Bool × List String
  | [], visited => (.ok true, visited)
  | model :: rest, visited =>
      let visited := visited ++ [model.uuid]
      match grant_model model.uuid model_acl with
      | none => grantGo grant_model model_acl overwrite rest visited
      | some err =>
          if !overwrite then (.error (Err.jujuError err), visited)
          else grantGo grant_model model_acl overwrite rest visited

/-- `GrantCommand.execute` (`commands/grant.py` lines 53-102): compute the
controller/model acls, call `controller.grant` (a `JujuError` there is not
caught), then grant the model acl on every filtered model, returning `True`.
Remote outcomes are oracles: `grant` (controller acl ↦ optional error) and
`grant_model` (model uuid, model acl ↦ optional error). -/
def GrantCommand.execute (grant : String → Option String)
    (grant_model : String → String → Option String) (models : List ModelInfo)
    (overwrite : Bool) (acl : String) : Except Err Bool × List String :=
  let controller_acl := GrantCommand.get_controller_acl acl
  let model_acl := GrantCommand.get_model_acl acl
  match grant controller_acl with
  | some err => (.error (Err.jujuError err), [])
  | none => grantGo grant_model model_acl overwrite models []

/-- `RemoveUserCommand.execute` (`commands/remove_user.py` lines 42-95):
run `RevokeModelCommand` on every filtered model, then `RevokeCommand`, then
`DisableUserCommand`; each sub-step's failed `Result` is only logged as a
warning (sub-results are oracles), and the method unconditionally returns
`True`.  `overwrite` may be present in the CLI kwargs but is never read.
The returned list collects the warning log entries. -/
def RemoveUserCommand.execute (models : List ModelInfo)
    (revoke_model_run : String → Result) (revoke_run : Result)
    (disable_run : Result) (_overwrite : Bool) : Bool × List String :=
  let modelLogs := models.foldl
    (fun acc model =>
      if (revoke_model_run model.uuid).success then acc
      else acc ++ ["model " ++ model.uuid ++ " revoke model user fail"]) []
  let revokeLogs :=
    if revoke_run.success then modelLogs
    else modelLogs ++ ["revoke user fail"]
  let disableLogs :=
    if disable_run.success then revokeLogs
    else revokeLogs ++ ["disable user fail"]
  (true, disableLogs)

/-- `DEFAULT_TTL_RULE` (`utils.py` line 36). -/
def DEFAULT_TTL_RULE : Nat := 3600

/-- The `data` dict stored by the list-models cache
(`commands/list_models.py` lines 32-38). -/
structure CacheData where
  models : List String
  refresh : Bool
  deriving DecidableEq, Repr

/-- `FileCache` / `FileCacheContext` (`utils.py` lines 90-114): uuid, name,
data and timestamp; time is modelled as `Nat` seconds. -/
structure FileCache where
  uuid : String
  name : String
  data : CacheData
  timestamp : Nat
  deriving DecidableEq, Repr

/-- `FileCache.expired` (`utils.py` lines 106-109):
`timestamp + policy["ttl"] < time()` with the default ttl policy. -/
def FileCache.expired (fc : FileCache) (now : Nat) : Bool :=
  fc.timestamp + DEFAULT_TTL_RULE < now

/-- `FileCache.context` (`utils.py` lines 111-114): `asdict(self)`, i.e. the
record of the four data fields. -/
def FileCache.context (fc : FileCache) : FileCache := fc

/-- Python attribute read of a Boolean-valued attribute on a `FileCache`
instance.  `FileCache` (with its bases `Cache` and `FileCacheContext`,
`utils.py` lines 40-166) defines the fields `uuid`, `name`, `data`,
`timestamp`, `cache_name`, `cache_directory`, `policy` and the properties
`expired` and `context`; the only Boolean-valued attribute is the `expired`
property, and reading any other name raises `AttributeError`. -/
def FileCache.getattrBool (fc : FileCache) (now : Nat) (attr : String) :
    Except Err Bool :=
  if attr = "expired" then .ok (fc.expired now)
  else .error (Err.attributeError ("FileCache object has no attribute " ++ attr))

/-- `ListModelsCommand.load_cache_data` (`commands/list_models.py` lines
64-79): `FileCache.connect` wraps every failure into `JujuSpellError`
(`utils.py` lines 150-166), which is caught and logged, leaving
`file_cache = None`; on success `data["refresh"]` is set to `False`.  The
outcome of `FileCache.connect` is the oracle argument. -/
def ListModelsCommand.load_cache_data (connectResult : Except Err FileCache) :
    Option FileCache :=
  match connectResult with
  | .ok fc => some { fc with data := { fc.data with refresh := false } }
  | .error _ => none

/-- `ListModelsCommand.save_cache_data` (`commands/list_models.py` lines
45-62): build a fresh `FileCache` from the recomputed data with the current
time; `commit` failures (`JujuSpellError`) are caught and logged, so the
fresh cache object is returned in every case (the commit outcome is
therefore not a parameter of the model). -/
def ListModelsCommand.save_cache_data (uuid name : String)
    (models : List String) (refresh : Bool) (now : Nat) : FileCache :=
  { uuid := uuid
    name := name
    data := { models := models, refresh := refresh }
    timestamp := now }

/-- `ListModelsCommand.execute` (`commands/list_models.py` lines 15-43):
load the cache unless refresh is forced; when refresh is forced, the cache
is missing, or `file_cache.need_refresh` holds, recompute the model list
from the live target (oracle `liveModels`) and save it; finally return
`file_cache.context`.  The `need_refresh` attribute read is modelled by
`FileCache.getattrBool`, and an uncaught exception from it propagates. -/
def ListModelsCommand.execute (refresh : Bool)
    (connectResult : Except Err FileCache) (liveModels : List String)
    (now : Nat) (uuid name : String) : Except Err FileCache :=
  let file_cache : Option FileCache :=
    if !refresh then ListModelsCommand.load_cache_data connectResult else none
  let recompute : FileCache :=
    ListModelsCommand.save_cache_data uuid name liveModels refresh now
  match refresh, file_cache with
  | true, _ => .ok recompute.context
  | false, none => .ok recompute.context
  | false, some fc =>
      match fc.getattrBool now "need_refresh" with
      | .error e => .error e
      | .ok b => if b then .ok recompute.context else .ok fc.context

/-- The characters stripped by `strip("()[]")` in
`UpdatePackages.parse_result`. -/
def bracketChars : List Char := ['(', ')', '[', ']']

/-- Python `s.strip(bad)`: drop the characters of `bad` from both ends. -/
def stripChars (bad : List Char) (s : List Char) : List Char :=
  ((s.dropWhile (· ∈ bad)).reverse.dropWhile (· ∈ bad)).reverse

/-- Python `s.startswith(pat)` on character lists. -/
def hasPrefix : List Char → List Char → Bool
  | [], _ => true
  | _ :: _, [] => false
  | c :: cs, d :: ds => c = d && hasPrefix cs ds

/-- Python `line.split(" ")`: split on every single space, keeping empty
fragments. -/
def splitOnSpace : List Char → List (List Char)
  | [] => [[]]
  | c :: cs =>
      let r := splitOnSpace cs
      if c = ' ' then [] :: r
      else
        match r with
        | [] => [[c]]
        | h :: t => (c :: h) :: t

/-- Python `s.splitlines()` for newline-separated text: split on `\n`,
without a trailing empty line for a trailing newline, and `[]` for the empty
string. -/
def splitlinesChars : List Char → List (List Char)
  | [] => []
  | c :: cs =>
      if c = '\n' then [] :: splitlinesChars cs
      else
        match splitlinesChars cs with
        | [] => [[c]]
        | h :: t => (c :: h) :: t

/-- `PackageUpdateResult` (`commands/update_packages.py` lines 23-27). -/
structure PackageUpdateResult where
  package : List Char
  from_version : List Char
  to_version : List Char
  deriving DecidableEq, Repr

/-- One iteration of the loop in `UpdatePackages.parse_result`
(`commands/update_packages.py` lines 135-156) on a single line: lines
starting with `"Inst "` unpack `_, name, from_version, to_version, *others`
from `line.split(" ")` (raising `ValueError` when there are fewer than four
fragments), lines starting with `"Unpacking"` unpack
`_, name, to_version, _, from_version, *others` (fewer than five fragments
raise), every other line leaves all three variables empty; then brackets and
spaces are stripped and a triple is recorded iff all three parts are
non-empty. -/
def parseLine (line : List Char) : Except Err (List PackageUpdateResult) :=
  let finish (name from_version to_version : List Char) :
      List PackageUpdateResult :=
    let to_v := stripChars bracketChars to_version
    let from_v := stripChars bracketChars from_version
    let n := stripChars [' '] name
    if from_v = [] ∨ to_v = [] ∨ n = [] then []
    else [{ package := n, from_version := from_v, to_version := to_v }]
  if hasPrefix "Inst ".data line then
    match splitOnSpace line with
    | _ :: name :: from_version :: to_version :: _ =>
        .ok (finish name from_version to_version)
    | _ => .error (Err.valueError "not enough values to unpack")
  else if hasPrefix "Unpacking".data line then
    match splitOnSpace line with
    | _ :: name :: to_version :: _ :: from_version :: _ =>
        .ok (finish name from_version to_version)
    | _ => .error (Err.valueError "not enough values to unpack")
  else .ok []

/-- The line loop of `UpdatePackages.parse_result`: accumulate the triples
of every line in order; an exception raised by any line aborts the whole
parse. -/
def parseLinesGo : List (List Char) → Except Err (List PackageUpdateResult)
  | [] => .ok []
  | l :: ls =>
      match parseLine l with
      | .error e => .error e
      | .ok ps =>
          match parseLinesGo ls with
          | .error e => .error e
          | .ok rest => .ok (ps ++ rest)

/-- `UpdatePackages.parse_result` (`commands/update_packages.py` lines
128-157). -/
def parse_result (result : List Char) : Except Err (List PackageUpdateResult) :=
  parseLinesGo (splitlinesChars result)

/-- Intercalate a separator character between fragments (used to build
concrete lines/texts for the statements about `parse_result`). -/
def joinWith (sep : Char) : List (List Char) → List Char
  | [] => []
  | [t] => t
  | t :: ts => t ++ sep :: joinWith sep ts

/-- A two-entry registry whose first handle's `disconnect()` raises. -/
def cleanFailState : ManagerState :=
  { connections := [("a", ⟨0, some 10⟩), ("b", ⟨1, some 11⟩)]
    handles := [(0, true), (1, true)]
    nextHandle := 2
    nextProc := 12
    spawned := [10, 11]
    terminated := []
    disconnected := [] }
/-- Environment in which disconnecting handle 0 fails. -/
def cleanFailEnv : Env :=
  { isFree := fun _ => true
    shuffled := []
    connOk := fun _ => true
    disconnectFails := fun h => h == 0 }
/-- Environment in which no disconnect fails. -/
def cleanOkEnv : Env :=
  { isFree := fun _ => true
    shuffled := []
    connOk := fun _ => true
    disconnectFails := fun _ => false }
/-- Target and states for the C3 witness: no tunnel spec, empty registry. -/
def c3Cfg : Controller :=
  { uuid := "uuid-1", name := "ctrl", customer := "cust"
    endpoint := "10.0.0.1:17070", username := "admin", password := "pw"
    ca_cert := "cert", connection := none }
/-- The empty manager state. -/
def emptyState : ManagerState :=
  { connections := [], handles := [], nextHandle := 0, nextProc := 0
    spawned := [], terminated := [], disconnected := [] }
/-- The state after first connecting `c3Cfg` from the empty state. -/
def c3St1 : ManagerState :=
  { connections := [("ctrl", ⟨0, none⟩)], handles := [(0, true)]
    nextHandle := 1, nextProc := 0, spawned := [], terminated := []
    disconnected := [] }
/-- One-target configuration for witnesses. -/
def oneTargetConfig : Config := { controllers := [c3Cfg] }
/-- Environment whose remote connects come up dead: every handle reports
not connected, so every ping probe reports `unreachable`. -/
def unreachableEnv : Env :=
  { isFree := fun _ => true
    shuffled := []
    connOk := fun _ => false
    disconnectFails := fun _ => false }
/-- The per-line shapes of the claim: a line is either blank or otherwise
free of both parse prefixes (no triple), or a well-formed `Inst`-line
`Inst X t3 t4 ...` whose third/fourth tokens strip (over `()[]`) to the two
versions, or a well-formed `Unpacking`-line `Unpacking X t (over) t' ...`
whose third/fifth tokens strip to the two versions. -/
def LineTriples (l : List Char) (tr : List PackageUpdateResult) : Prop :=
  (hasPrefix "Inst ".data l = false ∧ hasPrefix "Unpacking".data l = false
    ∧ tr = [])
  ∨ (∃ X t3 t4 rest,
      l = joinWith ' ' ("Inst".data :: X :: t3 :: t4 :: rest)
      ∧ (∀ c ∈ X, c ≠ ' ') ∧ X ≠ []
      ∧ (∀ c ∈ t3, c ≠ ' ') ∧ (∀ c ∈ t4, c ≠ ' ')
      ∧ (∀ t ∈ rest, ∀ c ∈ t, c ≠ ' ')
      ∧ stripChars bracketChars t3 ≠ [] ∧ stripChars bracketChars t4 ≠ []
      ∧ tr = [{ package := X, from_version := stripChars bracketChars t3,
                to_version := stripChars bracketChars t4 }])
  ∨ (∃ X t3 w t5 rest,
      l = joinWith ' ' ("Unpacking".data :: X :: t3 :: w :: t5 :: rest)
      ∧ (∀ c ∈ X, c ≠ ' ') ∧ X ≠ []
      ∧ (∀ c ∈ t3, c ≠ ' ') ∧ (∀ c ∈ w, c ≠ ' ') ∧ (∀ c ∈ t5, c ≠ ' ')
      ∧ (∀ t ∈ rest, ∀ c ∈ t, c ≠ ' ')
      ∧ stripChars bracketChars t3 ≠ [] ∧ stripChars bracketChars t5 ≠ []
      ∧ tr = [{ package := X, from_version := stripChars bracketChars t5,
                to_version := stripChars bracketChars t3 }])
/-- Pairing of an input's lines with the triples each line contributes:
every line is blank, prefix-free, or one of the two well-formed shapes, and
the parse output is the in-order concatenation of the per-line triples. -/
inductive LinesForm : List (List Char) → List PackageUpdateResult → Prop
  | nil : LinesForm [] []
  | cons (l : List Char) (tr : List PackageUpdateResult)
      (lines : List (List Char)) (trs : List PackageUpdateResult) :
      LineTriples l tr → LinesForm lines trs → LinesForm (l :: lines) (tr ++ trs)

/-! ## General lemmas about the embedded operations -/

theorem upsert_lookup (k : String) (v : Connection) :
    ∀ l : List (String × Connection), (upsert k v l).lookup k = some v := by
  intro l
  induction l with
  | nil => simp [upsert, List.lookup]
  | cons p rest ih =>
      by_cases h : p.1 = k
      · simp [upsert, h, List.lookup]
      · simp only [upsert, h, if_false]
        simpa [List.lookup, show (k == p.1) = false by
          simpa [beq_iff_eq] using fun hk => h hk.symm] using ih

/-- `cleanGo` driven over exactly the registry's own key list with a
failure-free disconnect oracle: it never raises, empties the registry,
only appends to the disconnect/terminate logs, and disconnects every
handle and terminates every tunnel process of the registry. -/
theorem cleanGo_no_fail (fails : Nat → Bool) (hnf : ∀ h, fails h = false) :
    ∀ (conns : List (String × Connection)) (st : ManagerState),
      st.connections = conns →
      (cleanGo fails (conns.map Prod.fst) st).2 = none
      ∧ (cleanGo fails (conns.map Prod.fst) st).1.connections = []
      ∧ st.disconnected ⊆ (cleanGo fails (conns.map Prod.fst) st).1.disconnected
      ∧ st.terminated ⊆ (cleanGo fails (conns.map Prod.fst) st).1.terminated
      ∧ ∀ p ∈ conns,
          p.2.controller ∈ (cleanGo fails (conns.map Prod.fst) st).1.disconnected
          ∧ ∀ pid, p.2.connection_process = some pid →
              pid ∈ (cleanGo fails (conns.map Prod.fst) st).1.terminated := by
  intro conns
  induction conns with
  | nil =>
      intro st hst
      simp [cleanGo, hst]
  | cons p rest ih =>
      intro st hst
      have hlook : lookupConn st p.1 = some p.2 := by
        simp [lookupConn, hst, List.lookup]
      have hfail : fails p.2.controller = false := hnf _
      -- the state after processing the head entry
      set st1 := disconnectHandle st p.2.controller with hst1
      set st2 := (match p.2.connection_process with
        | some pid => { st1 with terminated := st1.terminated ++ [pid] }
        | none => st1) with hst2
      set st3 := { st2 with connections := eraseConn p.1 st2.connections } with hst3
      have hstep : cleanGo fails ((p :: rest).map Prod.fst) st
          = cleanGo fails (rest.map Prod.fst) st3 := by
        simp only [List.map_cons, cleanGo, hlook, hfail, Bool.false_eq_true,
          if_false]
      have hconn3 : st3.connections = rest := by
        have h2 : st2.connections = st.connections := by
          cases hproc : p.2.connection_process <;>
            simp [hst2, hst1, disconnectHandle, hproc]
        simp [hst3, h2, hst, eraseConn]
      obtain ⟨hnone, hempty, hdisc, hterm, hall⟩ := ih st3 hconn3
      have hd1 : st.disconnected ⊆ st3.disconnected := by
        have : st3.disconnected = st.disconnected ++ [p.2.controller] := by
          cases hproc : p.2.connection_process <;>
            simp [hst3, hst2, hst1, disconnectHandle, hproc]
        rw [this]; exact List.subset_append_left _ _
      have ht1 : st.terminated ⊆ st3.terminated := by
        cases hproc : p.2.connection_process with
        | none => simp [hst3, hst2, hst1, disconnectHandle, hproc]
        | some pid =>
            have : st3.terminated = st.terminated ++ [pid] := by
              simp [hst3, hst2, hst1, disconnectHandle, hproc]
            rw [this]; exact List.subset_append_left _ _
      refine ⟨by rw [hstep]; exact hnone, by rw [hstep]; exact hempty,
        by rw [hstep]; exact hd1.trans hdisc,
        by rw [hstep]; exact ht1.trans hterm, ?_⟩
      intro q hq
      rcases List.mem_cons.mp hq with hq | hq
      · subst hq
        constructor
        · rw [hstep]
          apply hdisc
          have : q.2.controller ∈ st3.disconnected := by
            cases hproc : q.2.connection_process <;>
              simp [hst3, hst2, hst1, disconnectHandle, hproc]
          exact this
        · intro pid hpid
          rw [hstep]
          apply hterm
          have : pid ∈ st3.terminated := by
            simp [hst3, hst2, hst1, disconnectHandle, hpid]
          exact this
      · have := hall q hq
        rw [hstep]
        exact this

/-- `clean` with a failure-free disconnect oracle raises nothing. -/
theorem clean_no_fail (env : Env) (st : ManagerState)
    (hnf : ∀ h, env.disconnectFails h = false) :
    (ConnectManager.clean env st).2 = none :=
  (cleanGo_no_fail env.disconnectFails hnf st.connections st rfl).1

/-! ## C4 -/

/-- C4: for every configuration and command, invoking the batch strategy or
the parallel strategy (not yet implemented) raises the explicit
rejection error — the spec's `UnsupportedStrategyError`, raised by the code
as `NotImplementedError` — and a `run` dispatched to either strategy never
returns a result list, so neither silently runs serially. -/
theorem C4_batch_parallel_reject (env : Env) (st : ManagerState)
    (config : Config) (command : Cmd) (parsed_args : RunArgs) (pre : Bool) :
    run_parallel env st config command parsed_args
      = (.error (UnsupportedStrategyError "running in parallel is not yet supported"), st)
    ∧ run_batch env st config command parsed_args
      = (.error (UnsupportedStrategyError "running in batches is not yet supported"), st)
    ∧ (∀ results stR,
        run env st config command { pre_check := pre, run_type := "parallel" }
          ≠ (.ok results, stR))
    ∧ (∀ results stR,
        run env st config command { pre_check := pre, run_type := "batch" }
          ≠ (.ok results, stR)) := by
  refine ⟨rfl, rfl, ?_, ?_⟩ <;>
  · intro results stR hcontra
    cases pre <;>
    · rw [run] at hcontra
      simp only [pre_check, runDispatch, run_parallel, run_batch,
        reduceIte, Bool.false_eq_true, if_false, if_true] at hcontra
      rcases hclean : ConnectManager.clean env st with ⟨stC, oe⟩
      cases oe <;> simp [hclean] at hcontra

/-! ## C10 -/

/-- C10: `RemoveUserCommand.execute` returns `True` for every input — even
when every sub-step (per-model revoke, controller revoke, disable user)
returns a failed `Result`, the failures are only logged — and its outcome is
independent of the `overwrite` flag. -/
theorem C10_remove_user_always_true (models : List ModelInfo)
    (revoke_model_run : String → Result) (revoke_run disable_run : Result)
    (overwrite overwrite' : Bool) :
    (RemoveUserCommand.execute models revoke_model_run revoke_run disable_run
        overwrite).1 = true
    ∧ RemoveUserCommand.execute models revoke_model_run revoke_run disable_run
        overwrite
      = RemoveUserCommand.execute models revoke_model_run revoke_run disable_run
        overwrite' :=
  ⟨rfl, rfl⟩

/-! ## C6 -/

/-- C6 (code bug): whenever refresh is not forced and the persisted cache
entry loads successfully — expired or not — `ListModelsCommand.execute` does
not return the cached context but raises `AttributeError`, because it reads
`file_cache.need_refresh` while `FileCache` only defines the `expired`
property; the claim (and the module's own tests, which only pass because
they stub the attribute on a Mock) expect the cached path to succeed. -/
theorem C6_list_models_need_refresh_attribute_error (fc : FileCache)
    (liveModels : List String) (now : Nat) (uuid name : String) :
    ListModelsCommand.execute false (.ok fc) liveModels now uuid name
      = .error (Err.attributeError "FileCache object has no attribute need_refresh") :=
  rfl

/-! ## C2 -/

/-- C2 (counterexample): with two registered connections whose first
disconnect fails, `clean` aborts: afterwards the registry is not empty, the
second connection was never disconnected, and no failure is collected — the
loop raises on the spot — so the claimed best-effort/collecting behaviour is
false. -/
theorem C2_clean_counterexample :
    ¬ ((ConnectManager.clean cleanFailEnv cleanFailState).1.connections = []
       ∧ 1 ∈ (ConnectManager.clean cleanFailEnv cleanFailState).1.disconnected) := by
  decide

/-- C2 (amended): `ConnectManager.clean` closes connections in registry
order with no exception handling — when no disconnect fails it disconnects
every handle, terminates every tunnel subprocess and removes every entry,
leaving the registry empty and raising nothing; but a failing disconnect
aborts the loop at that entry (fail-fast), so failures are neither tolerated
nor collected. -/
theorem C2_clean_amended (env : Env) (st : ManagerState)
    (hnf : ∀ h, env.disconnectFails h = false) :
    (ConnectManager.clean env st).2 = none
    ∧ (ConnectManager.clean env st).1.connections = []
    ∧ ∀ p ∈ st.connections,
        p.2.controller ∈ (ConnectManager.clean env st).1.disconnected
        ∧ ∀ pid, p.2.connection_process = some pid →
            pid ∈ (ConnectManager.clean env st).1.terminated := by
  obtain ⟨h1, h2, _, _, h5⟩ :=
    cleanGo_no_fail env.disconnectFails hnf st.connections st rfl
  exact ⟨h1, h2, h5⟩

/-- C2 (witness): the amended theorem applied to the concrete two-entry
registry under the failure-free environment. -/
theorem C2_clean_amended_witness :
    (ConnectManager.clean cleanOkEnv cleanFailState).2 = none
    ∧ (ConnectManager.clean cleanOkEnv cleanFailState).1.connections = []
    ∧ ∀ p ∈ cleanFailState.connections,
        p.2.controller ∈ (ConnectManager.clean cleanOkEnv cleanFailState).1.disconnected
        ∧ ∀ pid, p.2.connection_process = some pid →
            pid ∈ (ConnectManager.clean cleanOkEnv cleanFailState).1.terminated :=
  C2_clean_amended cleanOkEnv cleanFailState (fun _ => rfl)

/-! ## C7 -/

theorem get_free_tcp_port_finds (isFree : Nat → Bool) :
    ∀ shuffled : List Nat, (∃ p ∈ shuffled, isFree p = true) →
      ∃ p, get_free_tcp_port shuffled isFree = .ok p
        ∧ p ∈ shuffled ∧ isFree p = true := by
  intro shuffled
  induction shuffled with
  | nil => rintro ⟨p, hp, -⟩; cases hp
  | cons q rest ih =>
      rintro ⟨p, hp, hfree⟩
      by_cases hq : isFree q = true
      · exact ⟨q, by simp [get_free_tcp_port, hq], List.mem_cons_self q rest, hq⟩
      · have hne : p ≠ q := fun h => hq (h ▸ hfree)
        have hp' : p ∈ rest := by
          rcases List.mem_cons.mp hp with h | h
          · exact absurd h hne
          · exact h
        obtain ⟨r, hr1, hr2, hr3⟩ := ih ⟨p, hp', hfree⟩
        refine ⟨r, ?_, List.mem_cons_of_mem _ hr2, hr3⟩
        simpa [get_free_tcp_port, hq] using hr1

theorem get_free_tcp_port_exhausted (isFree : Nat → Bool) :
    ∀ shuffled : List Nat, (∀ p ∈ shuffled, isFree p = false) →
      get_free_tcp_port shuffled isFree = .error NoFreePort := by
  intro shuffled
  induction shuffled with
  | nil => intro; rfl
  | cons q rest ih =>
      intro hall
      have hq : isFree q = false := hall q (List.mem_cons_self q rest)
      have := ih fun p hp => hall p (List.mem_cons_of_mem _ hp)
      simpa [get_free_tcp_port, hq] using this

/-- C7: when a target requires point-to-point tunnelling, the local port is
selected by scanning a random permutation of the configured port range —
some free in-range port is returned whenever at least one port of the range
is free, the `NoFreePort` failure (`ValueError` in the code) is raised when
every port of the range is occupied, and in that case `_connect` for a
tunnelled target fails with `NoFreePort` without touching the state. -/
theorem C7_free_port_selection (port_range shuffled : List Nat)
    (isFree : Nat → Bool) (hperm : shuffled.Perm port_range) :
    ((∃ p ∈ port_range, isFree p = true) →
      ∃ p, get_free_tcp_port shuffled isFree = .ok p
        ∧ p ∈ port_range ∧ isFree p = true)
    ∧ ((∀ p ∈ port_range, isFree p = false) →
      get_free_tcp_port shuffled isFree = .error NoFreePort)
    ∧ ∀ (env : Env) (st : ManagerState) (cfg : Controller) (ts : TunnelSpec),
        env.shuffled = shuffled → env.isFree = isFree →
        cfg.connection = some ts →
        (∀ p ∈ port_range, isFree p = false) →
        ConnectManager.connectNew env st cfg false = (.error NoFreePort, st) := by
  refine ⟨?_, ?_, ?_⟩
  · rintro ⟨p, hp, hfree⟩
    obtain ⟨r, hr1, hr2, hr3⟩ :=
      get_free_tcp_port_finds isFree shuffled ⟨p, hperm.mem_iff.mpr hp, hfree⟩
    exact ⟨r, hr1, hperm.mem_iff.mp hr2, hr3⟩
  · intro hall
    exact get_free_tcp_port_exhausted isFree shuffled
      fun p hp => hall p (hperm.mem_iff.mp hp)
  · intro env st cfg ts hsh hfr hcfg hall
    have herr : get_free_tcp_port env.shuffled env.isFree = .error NoFreePort := by
      rw [hsh, hfr]
      exact get_free_tcp_port_exhausted isFree shuffled
        fun p hp => hall p (hperm.mem_iff.mp hp)
    simp [ConnectManager.connectNew, hcfg, herr]

/-- C7 (witness): a two-port range with exactly one free port, shuffled. -/
theorem C7_free_port_selection_witness :
    ((∃ p ∈ [7000, 7001], (fun q => q == 7000) p = true) →
      ∃ p, get_free_tcp_port [7001, 7000] (fun q => q == 7000) = .ok p
        ∧ p ∈ [7000, 7001] ∧ (fun q => q == 7000) p = true)
    ∧ ((∀ p ∈ [7000, 7001], (fun q => q == 7000) p = false) →
      get_free_tcp_port [7001, 7000] (fun q => q == 7000) = .error NoFreePort)
    ∧ ∀ (env : Env) (st : ManagerState) (cfg : Controller) (ts : TunnelSpec),
        env.shuffled = [7001, 7000] → env.isFree = (fun q => q == 7000) →
        cfg.connection = some ts →
        (∀ p ∈ [7000, 7001], (fun q => q == 7000) p = false) →
        ConnectManager.connectNew env st cfg false = (.error NoFreePort, st) :=
  C7_free_port_selection [7000, 7001] [7001, 7000] (fun q => q == 7000)
    (by decide)

/-! ## C3 -/

/-- A successful `_connect` hands out the fresh handle id, leaves the
disconnect log untouched, and registers the new connection under the
target's name. -/
theorem connectNew_ok (env : Env) (st : ManagerState) (cfg : Controller)
    (sshuttle : Bool) (h : Nat) (st' : ManagerState)
    (hok : ConnectManager.connectNew env st cfg sshuttle = (.ok h, st')) :
    h = st.nextHandle
    ∧ st'.nextHandle = st.nextHandle + 1
    ∧ st'.disconnected = st.disconnected
    ∧ ∃ c, lookupConn st' cfg.name = some c ∧ c.controller = h := by
  rcases hcfg : cfg.connection with - | ts <;> cases sshuttle <;>
    simp only [ConnectManager.connectNew, hcfg] at hok
  case none.false | none.true =>
    have ha : Except.ok st.nextHandle = Except.ok h := congrArg Prod.fst hok
    have hs := congrArg Prod.snd hok
    obtain rfl : st.nextHandle = h := Except.ok.inj ha
    subst hs
    exact ⟨rfl, rfl, rfl, ⟨st.nextHandle, none⟩,
      upsert_lookup cfg.name ⟨st.nextHandle, none⟩ st.connections, rfl⟩
  case some.false =>
    rcases hg : get_free_tcp_port env.shuffled env.isFree with e | port <;>
      simp only [hg] at hok
    · exact absurd (congrArg Prod.fst hok) (by simp)
    · have ha : Except.ok st.nextHandle = Except.ok h := congrArg Prod.fst hok
      have hs := congrArg Prod.snd hok
      obtain rfl : st.nextHandle = h := Except.ok.inj ha
      subst hs
      exact ⟨rfl, rfl, rfl, ⟨st.nextHandle, some st.nextProc⟩,
        upsert_lookup cfg.name ⟨st.nextHandle, some st.nextProc⟩ st.connections, rfl⟩
  case some.true =>
    have ha : Except.ok st.nextHandle = Except.ok h := congrArg Prod.fst hok
    have hs := congrArg Prod.snd hok
    obtain rfl : st.nextHandle = h := Except.ok.inj ha
    subst hs
    exact ⟨rfl, rfl, rfl, ⟨st.nextHandle, some st.nextProc⟩,
      upsert_lookup cfg.name ⟨st.nextHandle, some st.nextProc⟩ st.connections, rfl⟩

/-- A successful `get_controller` always leaves the returned handle
registered under the target's name. -/
theorem get_controller_ok_registered (env : Env) (st : ManagerState)
    (cfg : Controller) (sshuttle reconnect : Bool) (h : Nat)
    (st' : ManagerState)
    (hok : ConnectManager.get_controller env st cfg sshuttle reconnect
      = (.ok h, st')) :
    ∃ c, lookupConn st' cfg.name = some c ∧ c.controller = h := by
  rcases hl : lookupConn st cfg.name with - | conn <;>
    simp only [ConnectManager.get_controller, hl] at hok
  · exact (connectNew_ok env st cfg sshuttle h st' hok).2.2.2
  · cases hb : isConnected st conn.controller && !reconnect
    · rw [hb] at hok
      cases reconnect
      · simp only [Bool.false_eq_true, if_false] at hok
        exact (connectNew_ok env st cfg sshuttle h st' hok).2.2.2
      · simp only [if_true] at hok
        exact (connectNew_ok env (disconnectHandle st conn.controller) cfg
          sshuttle h st' hok).2.2.2
    · rw [hb] at hok
      simp only [if_true] at hok
      have ha : Except.ok conn.controller = Except.ok h := congrArg Prod.fst hok
      obtain rfl : conn.controller = h := Except.ok.inj ha
      obtain rfl : st = st' := congrArg Prod.snd hok
      exact ⟨conn, hl, rfl⟩

/-- C3: after a successful `get_controller` whose handle is still connected,
a second request without forced reconnect returns the identical cached
handle and leaves the state — in particular the list of spawned tunnel
subprocesses — unchanged; a second request with forced reconnect disconnects
the old handle and registers a freshly created connection (with the fresh
handle id) under the target's name before returning it. -/
theorem C3_connection_reuse_and_reconnect (env : Env) (st : ManagerState)
    (cfg : Controller) (sshuttle : Bool) (h1 : Nat) (st1 : ManagerState)
    (hfirst : ConnectManager.get_controller env st cfg sshuttle false
      = (.ok h1, st1))
    (hconn : isConnected st1 h1 = true) :
    ConnectManager.get_controller env st1 cfg sshuttle false = (.ok h1, st1)
    ∧ (ConnectManager.get_controller env st1 cfg sshuttle false).2.spawned
        = st1.spawned
    ∧ ∀ h2 st2,
        ConnectManager.get_controller env st1 cfg sshuttle true = (.ok h2, st2) →
        h1 ∈ st2.disconnected
        ∧ h2 = st1.nextHandle
        ∧ ∃ c, lookupConn st2 cfg.name = some c ∧ c.controller = h2 := by
  obtain ⟨c, hcReg, hcCtl⟩ :=
    get_controller_ok_registered env st cfg sshuttle false h1 st1 hfirst
  have hcached :
      ConnectManager.get_controller env st1 cfg sshuttle false = (.ok h1, st1) := by
    simp [ConnectManager.get_controller, hcReg, hcCtl, hconn]
  refine ⟨hcached, by rw [hcached], ?_⟩
  intro h2 st2 hsecond
  have hsecond' :
      ConnectManager.connectNew env (disconnectHandle st1 c.controller) cfg
        sshuttle = (.ok h2, st2) := by
    simpa [ConnectManager.get_controller, hcReg] using hsecond
  obtain ⟨hfresh, -, hdisc, c', hreg', hctl'⟩ :=
    connectNew_ok env (disconnectHandle st1 c.controller) cfg sshuttle h2 st2
      hsecond'
  refine ⟨?_, ?_, c', hreg', hctl'⟩
  · rw [hdisc]
    simp [disconnectHandle, hcCtl]
  · simpa [disconnectHandle] using hfresh

/-- C3 (witness): the theorem applied to a concrete first connection. -/
theorem C3_connection_reuse_and_reconnect_witness :
    ConnectManager.get_controller cleanOkEnv c3St1 c3Cfg false false
      = (.ok 0, c3St1)
    ∧ (ConnectManager.get_controller cleanOkEnv c3St1 c3Cfg false false).2.spawned
        = c3St1.spawned
    ∧ ∀ h2 st2,
        ConnectManager.get_controller cleanOkEnv c3St1 c3Cfg false true
          = (.ok h2, st2) →
        0 ∈ st2.disconnected
        ∧ h2 = c3St1.nextHandle
        ∧ ∃ c, lookupConn st2 c3Cfg.name = some c ∧ c.controller = h2 :=
  C3_connection_reuse_and_reconnect cleanOkEnv emptyState c3Cfg false 0 c3St1
    rfl rfl

/-! ## C5 -/

/-- The serial loop, relative to an accumulator: on success it extends the
accumulator with exactly one record per visited target, in order, each
record merging that target's identity context with the `Result` the command
returned for it. -/
theorem runSerialGo_spec (env : Env) (cmd : Cmd) :
    ∀ (ctrls : List Controller) (st : ManagerState) (acc : List ResultRecord)
      (results : List ResultRecord) (st' : ManagerState),
      runSerialGo env cmd ctrls st acc = (.ok results, st') →
      results.length = acc.length + ctrls.length
      ∧ (∀ i, i < acc.length → results[i]? = acc[i]?)
      ∧ ∀ i (hi : i < ctrls.length), ∃ hdl stI,
          results[acc.length + i]? =
            some (get_result (ctrls.get ⟨i, hi⟩) (cmd stI hdl (ctrls.get ⟨i, hi⟩))) := by
  intro ctrls
  induction ctrls with
  | nil =>
      intro st acc results st' hok
      simp only [runSerialGo] at hok
      have ha : Except.ok acc = Except.ok results := congrArg Prod.fst hok
      obtain rfl : acc = results := Except.ok.inj ha
      exact ⟨by simp, fun i _ => rfl, fun i hi => absurd hi (Nat.not_lt_zero i)⟩
  | cons c cs ih =>
      intro st acc results st' hok
      simp only [runSerialGo] at hok
      rcases hg : ConnectManager.get_controller env st c false false with ⟨r, st1⟩
      rw [hg] at hok
      rcases r with e | hdl
      · exact absurd (congrArg Prod.fst hok) (by simp)
      · simp only at hok
        obtain ⟨hlen, hpre, hidx⟩ := ih st1 (acc ++ [get_result c (cmd st1 hdl c)])
          results st' hok
        refine ⟨by
          rw [hlen]
          simp only [List.length_append, List.length_cons, List.length_nil]
          omega, ?_, ?_⟩
        · intro i hi
          have hi' : i < (acc ++ [get_result c (cmd st1 hdl c)]).length := by
            simp; omega
          rw [hpre i hi']
          exact List.getElem?_append_left hi
        · intro i hi
          cases i with
          | zero =>
              refine ⟨hdl, st1, ?_⟩
              have hlt : acc.length < (acc ++ [get_result c (cmd st1 hdl c)]).length := by
                simp
              rw [Nat.add_zero, hpre acc.length hlt,
                List.getElem?_concat_length]
              simp [List.get]
          | succ j =>
              have hj : j < cs.length := by
                simpa using Nat.lt_of_succ_lt_succ hi
              obtain ⟨hdl2, stI, hrec⟩ := hidx j hj
              refine ⟨hdl2, stI, ?_⟩
              have harith : acc.length + (j + 1)
                  = (acc ++ [get_result c (cmd st1 hdl c)]).length + j := by
                simp; omega
              rw [harith, hrec]
              rfl

/-- C5: a successful serial run returns exactly one result record per
target, in input order, each record combining its own target's identity
context (uuid, name, customer) with the `Result` the command returned for
that target. -/
theorem C5_serial_order_and_context (env : Env) (st : ManagerState)
    (config : Config) (cmd : Cmd) (parsed_args : RunArgs)
    (results : List ResultRecord) (st' : ManagerState)
    (hok : run_serial env st config cmd parsed_args = (.ok results, st')) :
    results.length = config.controllers.length
    ∧ ∀ i (hi : i < config.controllers.length), ∃ hdl stI,
        results[i]? =
          some (get_result (config.controllers.get ⟨i, hi⟩)
            (cmd stI hdl (config.controllers.get ⟨i, hi⟩))) := by
  obtain ⟨hlen, -, hidx⟩ := runSerialGo_spec env cmd config.controllers st []
    results st' hok
  refine ⟨by simpa using hlen, ?_⟩
  intro i hi
  simpa using hidx i hi

/-- C5 (witness): the serial run of `PingCommand` over the one-target
configuration from the empty state. -/
theorem C5_serial_order_and_context_witness :
    [({ context := { uuid := "uuid-1", name := "ctrl", customer := "cust" }
        success := true, output := .str "accessible",
        error := none } : ResultRecord)].length
      = oneTargetConfig.controllers.length
    ∧ ∀ i (hi : i < oneTargetConfig.controllers.length), ∃ hdl stI,
        [({ context := { uuid := "uuid-1", name := "ctrl", customer := "cust" }
            success := true, output := .str "accessible",
            error := none } : ResultRecord)][i]? =
          some (get_result (oneTargetConfig.controllers.get ⟨i, hi⟩)
            (PingCommand stI hdl (oneTargetConfig.controllers.get ⟨i, hi⟩))) :=
  C5_serial_order_and_context cleanOkEnv emptyState oneTargetConfig PingCommand
    { pre_check := false, run_type := "serial" } _ c3St1 rfl

/-! ## C1 -/

/-- C1: with the pre-check option enabled (and teardown itself not
failing), a pre-check that reports some target unreachable makes `run`
return exactly the pre-check result list, and the main command is never
invoked — the outcome is the same for every main command; when the
pre-check reports every target reachable, `run` executes the main command
under the selected strategy from the post-pre-check state (followed by the
guaranteed teardown). -/
theorem C1_precheck_gates_run (env : Env) (st : ManagerState)
    (config : Config) (command command' : Cmd) (parsed_args : RunArgs)
    (hpc : parsed_args.pre_check = true)
    (hnf : ∀ h, env.disconnectFails h = false) :
    (∀ res st1,
      pre_check env st config parsed_args = (.ok (false, res), st1) →
      (run env st config command parsed_args).1 = .ok res
      ∧ run env st config command parsed_args
          = run env st config command' parsed_args)
    ∧ ∀ res st1,
        pre_check env st config parsed_args = (.ok (true, res), st1) →
        run env st config command parsed_args
          = ((runDispatch env st1 config command parsed_args).1,
             (ConnectManager.clean env
               (runDispatch env st1 config command parsed_args).2).1) := by
  constructor
  · intro res st1 hpre
    rcases hcl : ConnectManager.clean env st1 with ⟨stC, oe⟩
    have hoe : oe = none := by
      have h := clean_no_fail env st1 hnf
      rw [hcl] at h
      exact h
    subst hoe
    have hrun : run env st config command parsed_args = (.ok res, stC) := by
      simp [run, hpc, hpre, hcl]
    have hrun' : run env st config command' parsed_args = (.ok res, stC) := by
      simp [run, hpc, hpre, hcl]
    rw [hrun, hrun']
    exact ⟨rfl, rfl⟩
  · intro res st1 hpre
    rcases hd : runDispatch env st1 config command parsed_args with ⟨r, st2⟩
    rcases hcl : ConnectManager.clean env st2 with ⟨stC, oe⟩
    have hoe : oe = none := by
      have h := clean_no_fail env st2 hnf
      rw [hcl] at h
      exact h
    subst hoe
    simp [run, hpc, hpre, hd, hcl]

/-- C1 (witness): the theorem applied to a one-target configuration in the
environment whose connections come up dead, with two distinct main
commands. -/
theorem C1_precheck_gates_run_witness :
    (∀ res st1,
      pre_check unreachableEnv emptyState oneTargetConfig
          { pre_check := true, run_type := "serial" } = (.ok (false, res), st1) →
      (run unreachableEnv emptyState oneTargetConfig PingCommand
          { pre_check := true, run_type := "serial" }).1 = .ok res
      ∧ run unreachableEnv emptyState oneTargetConfig PingCommand
            { pre_check := true, run_type := "serial" }
          = run unreachableEnv emptyState oneTargetConfig
              (fun _ _ _ => { success := false, output := Value.none, error := none })
              { pre_check := true, run_type := "serial" })
    ∧ ∀ res st1,
        pre_check unreachableEnv emptyState oneTargetConfig
            { pre_check := true, run_type := "serial" } = (.ok (true, res), st1) →
        run unreachableEnv emptyState oneTargetConfig PingCommand
            { pre_check := true, run_type := "serial" }
          = ((runDispatch unreachableEnv st1 oneTargetConfig PingCommand
                { pre_check := true, run_type := "serial" }).1,
             (ConnectManager.clean unreachableEnv
               (runDispatch unreachableEnv st1 oneTargetConfig PingCommand
                 { pre_check := true, run_type := "serial" }).2).1) :=
  C1_precheck_gates_run unreachableEnv emptyState oneTargetConfig PingCommand
    (fun _ _ _ => { success := false, output := Value.none, error := none })
    { pre_check := true, run_type := "serial" } rfl (fun _ => rfl)

/-! ## C8 -/

/-- With `overwrite` set, the per-model grant loop visits every model and
succeeds regardless of which `grant_model` calls raise. -/
theorem grantGo_overwrite (grant_model : String → String → Option String)
    (model_acl : String) :
    ∀ (models : List ModelInfo) (visited : List String),
      grantGo grant_model model_acl true models visited
        = (.ok true, visited ++ models.map ModelInfo.uuid) := by
  intro models
  induction models with
  | nil => intro visited; simp [grantGo]
  | cons m rest ih =>
      intro visited
      cases hg : grant_model m.uuid model_acl <;>
        simp [grantGo, hg, ih (visited ++ [m.uuid])]

/-- With `overwrite` unset, the per-model grant loop aborts at the first
model whose `grant_model` raises, having visited exactly the models up to
and including it. -/
theorem grantGo_no_overwrite (grant_model : String → String → Option String)
    (model_acl : String) :
    ∀ (pre : List ModelInfo) (m : ModelInfo) (post : List ModelInfo)
      (err : String) (visited : List String),
      (∀ x ∈ pre, grant_model x.uuid model_acl = none) →
      grant_model m.uuid model_acl = some err →
      grantGo grant_model model_acl false (pre ++ m :: post) visited
        = (.error (Err.jujuError err),
           visited ++ (pre ++ [m]).map ModelInfo.uuid) := by
  intro pre
  induction pre with
  | nil =>
      intro m post err visited _ hm
      simp [grantGo, hm]
  | cons p rest ih =>
      intro m post err visited hpre hm
      have hp : grant_model p.uuid model_acl = none :=
        hpre p (List.mem_cons_self p rest)
      have := ih m post err (visited ++ [p.uuid])
        (fun x hx => hpre x (List.mem_cons_of_mem p hx)) hm
      simp only [List.cons_append, grantGo, hp, List.append_eq]
      rw [this]
      simp

/-- C8: for the grant command over a list of models (with the initial
controller-level grant succeeding): when the `overwrite` flag is set, every
per-model grant conflict is tolerated, all models are still visited and the
command completes successfully; when `overwrite` is unset, the first
per-model conflict propagates as the raised `JujuError`, aborting the
command after visiting only the models up to the conflicting one. -/
theorem C8_grant_overwrite_policy (grant : String → Option String)
    (grant_model : String → String → Option String) (acl : String)
    (models : List ModelInfo)
    (hok : grant (GrantCommand.get_controller_acl acl) = none) :
    GrantCommand.execute grant grant_model models true acl
      = (.ok true, models.map ModelInfo.uuid)
    ∧ ∀ (pre : List ModelInfo) (m : ModelInfo) (post : List ModelInfo)
        (err : String),
        models = pre ++ m :: post →
        (∀ x ∈ pre, grant_model x.uuid (GrantCommand.get_model_acl acl) = none) →
        grant_model m.uuid (GrantCommand.get_model_acl acl) = some err →
        GrantCommand.execute grant grant_model models false acl
          = (.error (Err.jujuError err), (pre ++ [m]).map ModelInfo.uuid) := by
  constructor
  · simp [GrantCommand.execute, hok,
      grantGo_overwrite grant_model (GrantCommand.get_model_acl acl) models []]
  · intro pre m post err hsplit hpre hm
    subst hsplit
    simp [GrantCommand.execute, hok,
      grantGo_no_overwrite grant_model (GrantCommand.get_model_acl acl) pre m
        post err [] hpre hm]

/-- C8 (witness): two models under acl `write` (model acl `write`,
controller acl `login`), the second model's grant conflicting. -/
theorem C8_grant_overwrite_policy_witness :
    GrantCommand.execute (fun _ => none)
        (fun u _ => if u == "m2" then some "conflict" else none)
        [⟨"m1"⟩, ⟨"m2"⟩] true "write"
      = (.ok true, [⟨"m1"⟩, ⟨"m2"⟩].map ModelInfo.uuid)
    ∧ ∀ (pre : List ModelInfo) (m : ModelInfo) (post : List ModelInfo)
        (err : String),
        ([⟨"m1"⟩, ⟨"m2"⟩] : List ModelInfo) = pre ++ m :: post →
        (∀ x ∈ pre, (fun u _ => if u == "m2" then some "conflict" else none)
          x.uuid (GrantCommand.get_model_acl "write") = none) →
        (fun u _ => if u == "m2" then some "conflict" else none)
          m.uuid (GrantCommand.get_model_acl "write") = some err →
        GrantCommand.execute (fun _ => none)
            (fun u _ => if u == "m2" then some "conflict" else none)
            [⟨"m1"⟩, ⟨"m2"⟩] false "write"
          = (.error (Err.jujuError err), (pre ++ [m]).map ModelInfo.uuid) :=
  C8_grant_overwrite_policy (fun _ => none)
    (fun u _ => if u == "m2" then some "conflict" else none) "write"
    [⟨"m1"⟩, ⟨"m2"⟩] rfl

/-! ## C9 -/

theorem splitOnSpace_cons (c : Char) (cs : List Char) :
    splitOnSpace (c :: cs) = if c = ' ' then [] :: splitOnSpace cs
      else match splitOnSpace cs with
        | [] => [[c]]
        | h :: t => (c :: h) :: t := rfl

theorem splitlinesChars_cons (c : Char) (cs : List Char) :
    splitlinesChars (c :: cs) = if c = '\n' then [] :: splitlinesChars cs
      else match splitlinesChars cs with
        | [] => [[c]]
        | h :: t => (c :: h) :: t := rfl

theorem stripChars_no_op (bad : List Char) (s : List Char)
    (h : ∀ c ∈ s, c ∉ bad) : stripChars bad s = s := by
  have hdrop : ∀ t : List Char, (∀ c ∈ t, c ∉ bad) →
      t.dropWhile (· ∈ bad) = t := by
    intro t ht
    cases t with
    | nil => rfl
    | cons c t' =>
        have : (c ∈ bad) = False := by
          simp [ht c (List.mem_cons_self c t')]
        simp [List.dropWhile_cons, this]
  rw [stripChars, hdrop s h, hdrop s.reverse (by simpa using h),
    List.reverse_reverse]

theorem hasPrefix_self_append :
    ∀ p rest : List Char, hasPrefix p (p ++ rest) = true := by
  intro p rest
  induction p with
  | nil => rfl
  | cons c cs ih => simp [hasPrefix, ih]

theorem hasPrefix_head_ne {c d : Char} (h : c ≠ d) (cs ds : List Char) :
    hasPrefix (c :: cs) (d :: ds) = false := by
  simp [hasPrefix, h]

theorem splitOnSpace_no_space :
    ∀ w : List Char, (∀ c ∈ w, c ≠ ' ') → splitOnSpace w = [w] := by
  intro w
  induction w with
  | nil => intro; rfl
  | cons c t ih =>
      intro h
      have hc : c ≠ ' ' := h c (List.mem_cons_self c t)
      have := ih fun x hx => h x (List.mem_cons_of_mem c hx)
      simp [splitOnSpace, hc, this]

theorem splitOnSpace_append (rest : List Char) :
    ∀ w : List Char, (∀ c ∈ w, c ≠ ' ') →
      splitOnSpace (w ++ ' ' :: rest) = w :: splitOnSpace rest := by
  intro w
  induction w with
  | nil => intro; simp [splitOnSpace]
  | cons c t ih =>
      intro h
      have hc : c ≠ ' ' := h c (List.mem_cons_self c t)
      have ht := ih fun x hx => h x (List.mem_cons_of_mem c hx)
      simp only [List.cons_append, splitOnSpace, hc, if_false, ht]
      simp [splitOnSpace, hc, ht]

theorem splitOnSpace_joinWith :
    ∀ ts : List (List Char), ts ≠ [] →
      (∀ t ∈ ts, ∀ c ∈ t, c ≠ ' ') →
      splitOnSpace (joinWith ' ' ts) = ts := by
  intro ts
  induction ts with
  | nil => intro h; exact absurd rfl h
  | cons t rest ih =>
      intro _ hsp
      cases rest with
      | nil =>
          exact splitOnSpace_no_space t (hsp t (List.mem_cons_self t []))
      | cons t2 rest2 =>
          have hjoin : joinWith ' ' (t :: t2 :: rest2)
              = t ++ ' ' :: joinWith ' ' (t2 :: rest2) := rfl
          rw [hjoin, splitOnSpace_append _ t
            (hsp t (List.mem_cons_self t (t2 :: rest2))),
            ih (by simp) fun x hx => hsp x (List.mem_cons_of_mem t hx)]

theorem splitlines_no_newline :
    ∀ l : List Char, l ≠ [] → (∀ c ∈ l, c ≠ '\n') →
      splitlinesChars l = [l] := by
  intro l
  induction l with
  | nil => intro h; exact absurd rfl h
  | cons c t ih =>
      intro _ h
      have hc : c ≠ '\n' := h c (List.mem_cons_self c t)
      cases t with
      | nil =>
          rw [splitlinesChars_cons, if_neg hc]
          rfl
      | cons c2 t2 =>
          have ht := ih (by simp) fun x hx => h x (List.mem_cons_of_mem c hx)
          rw [splitlinesChars_cons, if_neg hc, ht]

theorem splitlines_append (rest : List Char) :
    ∀ l : List Char, (∀ c ∈ l, c ≠ '\n') →
      splitlinesChars (l ++ '\n' :: rest) = l :: splitlinesChars rest := by
  intro l
  induction l with
  | nil => intro; simp [splitlinesChars]
  | cons c t ih =>
      intro h
      have hc : c ≠ '\n' := h c (List.mem_cons_self c t)
      have ht := ih fun x hx => h x (List.mem_cons_of_mem c hx)
      simp [splitlinesChars, hc, ht]

/-- A parse of a single line (no newline in it) is the line loop on just
that line. -/
theorem parse_result_single (l : List Char) (hnl : ∀ c ∈ l, c ≠ '\n') :
    parse_result l = parseLine l := by
  cases hl : l with
  | nil =>
      rfl
  | cons c t =>
      rw [parse_result, ← hl, splitlines_no_newline l (by simp [hl]) hnl]
      rcases hp : parseLine l with e | tr <;> simp [parseLinesGo, hp]

/-- A line of one of the claim's shapes parses to exactly its triples,
without raising. -/
theorem parseLine_of_lineTriples (l : List Char)
    (tr : List PackageUpdateResult) (h : LineTriples l tr) :
    parseLine l = .ok tr := by
  rcases h with ⟨h1, h2, rfl⟩ | ⟨X, t3, t4, rest, rfl, hX, hXne, h3, h4, hrest,
      hv1, hv2, rfl⟩ | ⟨X, t3, w, t5, rest, rfl, hX, hXne, h3, hw, h5, hrest,
      hv1, hv2, rfl⟩
  · simp [parseLine, h1, h2]
  · have htok : ∀ t ∈ ("Inst".data :: X :: t3 :: t4 :: rest),
        ∀ c ∈ t, c ≠ ' ' := by
      intro t ht
      rcases List.mem_cons.mp ht with rfl | ht
      · decide
      rcases List.mem_cons.mp ht with rfl | ht
      · exact hX
      rcases List.mem_cons.mp ht with rfl | ht
      · exact h3
      rcases List.mem_cons.mp ht with rfl | ht
      · exact h4
      · exact hrest t ht
    have hline : joinWith ' ' ("Inst".data :: X :: t3 :: t4 :: rest)
        = "Inst ".data ++ joinWith ' ' (X :: t3 :: t4 :: rest) := by
      show "Inst".data ++ ' ' :: joinWith ' ' (X :: t3 :: t4 :: rest) = _
      simp
    have hpref : hasPrefix "Inst ".data
        (joinWith ' ' ("Inst".data :: X :: t3 :: t4 :: rest)) = true := by
      rw [hline]; exact hasPrefix_self_append _ _
    have hsplit := splitOnSpace_joinWith
      ("Inst".data :: X :: t3 :: t4 :: rest) (by simp) htok
    have hstrip : stripChars [' '] X = X :=
      stripChars_no_op [' '] X (by intro c hc; simpa using hX c hc)
    simp only [parseLine, hpref, if_true, hsplit, hstrip]
    simp [hv1, hv2, hXne]
  · have htok : ∀ t ∈ ("Unpacking".data :: X :: t3 :: w :: t5 :: rest),
        ∀ c ∈ t, c ≠ ' ' := by
      intro t ht
      rcases List.mem_cons.mp ht with rfl | ht
      · decide
      rcases List.mem_cons.mp ht with rfl | ht
      · exact hX
      rcases List.mem_cons.mp ht with rfl | ht
      · exact h3
      rcases List.mem_cons.mp ht with rfl | ht
      · exact hw
      rcases List.mem_cons.mp ht with rfl | ht
      · exact h5
      · exact hrest t ht
    have hline : joinWith ' ' ("Unpacking".data :: X :: t3 :: w :: t5 :: rest)
        = "Unpacking".data ++ ' ' :: joinWith ' ' (X :: t3 :: w :: t5 :: rest) :=
      rfl
    have hinst : hasPrefix "Inst ".data
        (joinWith ' ' ("Unpacking".data :: X :: t3 :: w :: t5 :: rest))
        = false := by
      rw [hline]
      exact hasPrefix_head_ne (by decide) _ _
    have hpref : hasPrefix "Unpacking".data
        (joinWith ' ' ("Unpacking".data :: X :: t3 :: w :: t5 :: rest))
        = true := by
      rw [hline]
      have : ("Unpacking".data : List Char) ++ ' ' :: joinWith ' ' (X :: t3 :: w :: t5 :: rest)
          = "Unpacking".data ++ (' ' :: joinWith ' ' (X :: t3 :: w :: t5 :: rest)) := rfl
      rw [this]
      exact hasPrefix_self_append _ _
    have hsplit := splitOnSpace_joinWith
      ("Unpacking".data :: X :: t3 :: w :: t5 :: rest) (by simp) htok
    have hstrip : stripChars [' '] X = X :=
      stripChars_no_op [' '] X (by intro c hc; simpa using hX c hc)
    simp only [parseLine, hinst, Bool.false_eq_true, if_false, hpref, if_true,
      hsplit, hstrip]
    simp [hv1, hv2, hXne]

/-- C9 (amended): on a text whose every line is blank, starts with neither
`"Inst "` nor `"Unpacking"`, or is a well-formed `Inst X [v1] (v2 ...)` /
`Unpacking X (v2) over (v1) ...` line, `parse_result` succeeds and returns
exactly one `(name, v1, v2)` triple per well-formed line, in order, and no
triple for the others.  (Prefix-matching lines with too few space-separated
fragments are excluded: on those the code raises `ValueError` instead of
ignoring them — see the counterexample.) -/
theorem C9_parse_install_log (lines : List (List Char))
    (out : List PackageUpdateResult)
    (hnl : ∀ l ∈ lines, ∀ c ∈ l, c ≠ '\n')
    (hform : LinesForm lines out) :
    parse_result (joinWith '\n' lines) = .ok out := by
  induction hform with
  | nil => rfl
  | cons l tr lines' trs hline htail ih =>
      have hl : ∀ c ∈ l, c ≠ '\n' :=
        hnl l (List.mem_cons_self l lines')
      have hnl' : ∀ x ∈ lines', ∀ c ∈ x, c ≠ '\n' :=
        fun x hx => hnl x (List.mem_cons_of_mem l hx)
      cases htail with
      | nil =>
          have : parse_result (joinWith '\n' [l]) = parseLine l :=
            parse_result_single l hl
          rw [show joinWith '\n' [l] = l from rfl] at this ⊢
          rw [this, parseLine_of_lineTriples l tr hline]
          simp
      | cons l2 tr2 lines2 trs2 hline2 htail2 =>
          have hjoin : joinWith '\n' (l :: l2 :: lines2)
              = l ++ '\n' :: joinWith '\n' (l2 :: lines2) := rfl
          have ihtail : parse_result (joinWith '\n' (l2 :: lines2))
              = .ok (tr2 ++ trs2) := ih hnl'
          rw [parse_result, hjoin, splitlines_append _ l hl]
          rw [parse_result] at ihtail
          simp [parseLinesGo, parseLine_of_lineTriples l tr hline, ihtail]

/-- C9 (counterexample): the claim is false as universally stated — on the
input line `Inst x y`, which starts with `"Inst "` but has fewer than four
space-separated fragments, the parser raises `ValueError` (Python: tuple
unpacking `_, name, from_version, to_version, *others` fails) instead of
ignoring the malformed line. -/
theorem C9_parse_counterexample :
    parse_result ("Inst x y".data)
      = .error (Err.valueError "not enough values to unpack") := rfl

/-- C9 (witness): a four-line input — a well-formed `Inst` line, a blank
line, a well-formed `Unpacking` line and an unrelated line — parses to
exactly the two triples, in order. -/
theorem C9_parse_install_log_witness :
    parse_result (joinWith '\n'
      ["Inst libdrm2 [2.4.110-1] (2.4.113-2 Ubuntu [amd64])".data,
       [],
       "Unpacking apt (2.4.8) over (2.4.7) ...".data,
       "random line".data])
      = .ok [⟨"libdrm2".data, "2.4.110-1".data, "2.4.113-2".data⟩,
             ⟨"apt".data, "2.4.7".data, "2.4.8".data⟩] :=
  C9_parse_install_log
    ["Inst libdrm2 [2.4.110-1] (2.4.113-2 Ubuntu [amd64])".data,
     [],
     "Unpacking apt (2.4.8) over (2.4.7) ...".data,
     "random line".data]
    [⟨"libdrm2".data, "2.4.110-1".data, "2.4.113-2".data⟩,
     ⟨"apt".data, "2.4.7".data, "2.4.8".data⟩]
    (by decide)
    (LinesForm.cons _ [⟨"libdrm2".data, "2.4.110-1".data, "2.4.113-2".data⟩] _ _
      (Or.inr (Or.inl ⟨"libdrm2".data, "[2.4.110-1]".data, "(2.4.113-2".data,
        ["Ubuntu".data, "[amd64])".data], by decide, by decide, by decide,
        by decide, by decide, by decide, by decide, by decide, by decide⟩))
      (LinesForm.cons _ [] _ _
        (Or.inl ⟨by decide, by decide, rfl⟩)
        (LinesForm.cons _ [⟨"apt".data, "2.4.7".data, "2.4.8".data⟩] _ _
          (Or.inr (Or.inr ⟨"apt".data, "(2.4.8)".data, "over".data,
            "(2.4.7)".data, ["...".data], by decide, by decide, by decide,
            by decide, by decide, by decide, by decide, by decide, by decide,
            by decide⟩))
          (LinesForm.cons _ [] _ _
            (Or.inl ⟨by decide, by decide, rfl⟩)
            LinesForm.nil))))

end JujuSpell
